import Mathlib

/-!
Shallow embedding of `vite-plugin-frontmatter-collection` (`src/index.ts`).

The plugin scans content files matched by a glob, extracts each file's
frontmatter, validates it with a zod schema or a user parse function,
optionally sorts the resulting entries, and exposes the aggregate as a
virtual module.  External capabilities (`globSync`, `readFileSync` +
`gray-matter`, `JSON.stringify`, `zodToTs`/`printNode`) are modelled as
components of an environment record; the plugin's own logic is translated
function by function from the source.
-/

namespace FrontmatterCollection

/-- A JavaScript object as this plugin consumes it: an association list of
string keys; lookup returns the first matching binding.  Constructions below
place overriding keys before fallback keys so that first-match lookup realizes
JavaScript's later-spread-wins semantics. -/
abbrev Obj (V : Type) : Type := List (String × V)

/-- Key lookup in a JavaScript object (first binding wins). -/
def Obj.lookup {V : Type} (o : Obj V) (k : String) : Option V :=
  (List.find? (fun p => p.1 == k) o).map (fun p => p.2)

/-- Line 146 of src/index.ts: `const globsafe = (s) => s.replace(/\\/g, "/")`
— every backslash character is replaced by a forward slash. -/
def globsafe (s : String) : String :=
  String.mk (s.data.map (fun c => if c = '\\' then '/' else c))

/-- Model of an external zod schema object: `parse` validates/transforms a raw
object, throwing on failure (modelled as `Except`); `tsType` is the rendering
`printNode (zodToTs schema name)` used for declaration emission, an external
deterministic printer carried as data (a function of the collection name). -/
structure ZodSchema (V T : Type) where
  parse : Obj V → Except String T
  tsType : String → String

/-- `FrontmatterCollectionConfig` from src/index.ts.  The `include` field is
renamed `includePattern` (`include` is reserved in Lean); `ignore` (string or
string array or absent in TypeScript) is modelled as a list of patterns. -/
structure FrontmatterCollectionConfig (V T : Type) where
  name : String
  includePattern : String
  parseFrontMatter : Option (Obj V → Except String T) := none
  schema : Option (ZodSchema V T) := none
  sort : Option (T → T → Int) := none
  filter : Option (T → Bool) := none
  ignore : List String := []

/-- The external capabilities the plugin calls out to: `glob` is `globSync`
(pattern and ignore patterns to matched file paths), `fileData` is
`matter(readFileSync(file, "utf-8")).data` (the parsed metadata block of a
file), `str` injects a file-path string into the object value type, and
`stringify` is `JSON.stringify` on an entry array. -/
structure Env (V T : Type) where
  glob : String → List String → List String
  fileData : String → Obj V
  str : String → V
  stringify : List T → String

/-- Lines 148-150: the arguments handed to `globSync` — the include pattern
goes through `globsafe`, the ignore patterns are passed as given. -/
def globArgs {V T : Type} (c : FrontmatterCollectionConfig V T) :
    String × List String :=
  (globsafe c.includePattern, c.ignore)

/-- The file set `allFiles` of one collection (line 148). -/
def globFiles {V T : Type} (env : Env V T)
    (c : FrontmatterCollectionConfig V T) : List String :=
  env.glob (globArgs c).1 (globArgs c).2

/-- Lines 154-161: the raw frontmatter object `{ filePath: file, ...data }`.
The spread of `data` comes second in the literal, so a `filePath` key inside
the file's own metadata overrides the injected one; with first-match lookup
this is rendered as `data` first with the injected binding as fallback. -/
def mkFrontmatter {V : Type} (str : String → V) (file : String)
    (data : Obj V) : Obj V :=
  data ++ [("filePath", str file)]

/-- Lines 163-191: processing of one file.  With a schema present its `parse`
runs (inside try/catch); otherwise, with a parse function present, that runs
(inside try/catch); with neither, nothing happens (unreachable after the
guard at lines 141-145). -/
def processFile {V T : Type} (env : Env V T)
    (c : FrontmatterCollectionConfig V T) (file : String) :
    Option (Except String T) :=
  let frontmatter := mkFrontmatter env.str file (env.fileData file)
  match c.schema with
  | some s => some (s.parse frontmatter)
  | none =>
    match c.parseFrontMatter with
    | some p => some (p frontmatter)
    | none => none

/-- One iteration of the `for (const file of allFiles)` loop (lines 153-192):
a success is pushed onto `entries`; a failure is reported to the diagnostic
sink (`console.error` with the file and the cause, recorded here as a pair)
and the loop continues with the next file. -/
def processStep {V T : Type} (env : Env V T)
    (c : FrontmatterCollectionConfig V T)
    (acc : List T × List (String × String)) (file : String) :
    List T × List (String × String) :=
  match processFile env c file with
  | some (Except.ok entry) => (acc.1 ++ [entry], acc.2)
  | some (Except.error e) => (acc.1, acc.2 ++ [(file, e)])
  | none => acc

/-- The entry/diagnostic accumulation of the whole loop, before sorting. -/
def rawEntries {V T : Type} (env : Env V T)
    (c : FrontmatterCollectionConfig V T) :
    List T × List (String × String) :=
  (globFiles env c).foldl (processStep env c) ([], [])

/-- Line 194 `entries.sort(collection.sort)`: ECMAScript `Array.prototype.sort`
with a consistent comparator is the stable sort by the order
`cmp a b ≤ 0`. -/
def jsSort {T : Type} (cmp : T → T → Int) (l : List T) : List T :=
  l.mergeSort (fun a b => decide (cmp a b ≤ 0))

/-- Lines 193-195: the sort is applied only when a comparator is configured. -/
def applySort {T : Type} (s : Option (T → T → Int)) (l : List T) : List T :=
  match s with
  | some cmp => jsSort cmp l
  | none => l

/-- The message of the configuration error thrown at lines 141-145. -/
def missingContractMsg (name : String) : String :=
  "You must provide a schema or a parseFrontMatter function for the collection "
    ++ name

/-- Lines 140-200, `collectFrontmatterEntries`: guard against a missing
contract (thrown error modelled as `Except.error`), resolve the file set,
run the per-file loop, sort when configured, and return the entries (the
recorded diagnostics are returned alongside; in the source they go to
`console.error`).  Note the source never consults `collection.filter`. -/
def collectFrontmatterEntries {V T : Type} (env : Env V T)
    (c : FrontmatterCollectionConfig V T) :
    Except String (List T × List (String × String)) :=
  if c.schema.isNone && c.parseFrontMatter.isNone then
    Except.error (missingContractMsg c.name)
  else
    let r := rawEntries env c
    Except.ok (applySort c.sort r.1, r.2)

/-- The entry sequence of one compiled collection (empty when compilation
fails with a configuration error). -/
def compiledEntries {V T : Type} (env : Env V T)
    (c : FrontmatterCollectionConfig V T) : List T :=
  match collectFrontmatterEntries env c with
  | Except.ok r => r.1
  | Except.error _ => []

/-- Line 207: the export statement of one collection. -/
def exportStatement {V T : Type} (env : Env V T)
    (c : FrontmatterCollectionConfig V T) (entries : List T) : String :=
  "export const " ++ c.name ++ " = " ++ env.stringify entries ++ ";"

/-- Lines 203-209: the loop pushing one export statement per collection, in
declaration order; a configuration error thrown by
`collectFrontmatterEntries` aborts the loop and propagates. -/
def exportStatements {V T : Type} (env : Env V T) :
    List (FrontmatterCollectionConfig V T) → Except String (List String)
  | [] => Except.ok []
  | c :: cs =>
    match collectFrontmatterEntries env c with
    | Except.error e => Except.error e
    | Except.ok r =>
      match exportStatements env cs with
      | Except.error e => Except.error e
      | Except.ok rest => Except.ok (exportStatement env c r.1 :: rest)

/-- Lines 202-213, `refreshVirtualModuleContent`: the virtual module body is
the newline-join of the export statements. -/
def refreshVirtualModuleContent {V T : Type} (env : Env V T)
    (cs : List (FrontmatterCollectionConfig V T)) : Except String String :=
  (exportStatements env cs).map (String.intercalate "\n")

/-- Model of JavaScript `String.prototype.endsWith` on the character data
(the Lean core implementation is not kernel-reducible). -/
def endsWithStr (s suffix : String) : Bool :=
  suffix.data.isSuffixOf s.data

/-- The part of Vite's module graph this plugin observes and mutates:
whether `getModuleById` finds the resolved virtual module, and whether
`invalidateModule` has marked it stale. -/
structure ModuleGraph where
  hasVirtualModule : Bool
  invalidated : Bool

/-- Lines 249-260, `handleHotUpdate`: paths not ending in `.mdx` are ignored;
otherwise the virtual module is looked up and, when present, invalidated.
The hook returns `modules` unchanged in every branch, so the module graph is
the only state affected. -/
def handleHotUpdate (file : String) (g : ModuleGraph) : ModuleGraph :=
  if !endsWithStr file ".mdx" then g
  else if g.hasVirtualModule then { g with invalidated := true } else g

/-- `FrontMatterCollectionPluginConfig` from src/index.ts (the plugin
options), with the defaults of lines 130-135. -/
structure FrontMatterCollectionPluginConfig (V T : Type) where
  collections : List (FrontmatterCollectionConfig V T)
  typesPath : Option String := none
  generateDTS : Bool := true
  debug : Bool := false

/-- Lines 220-227: one ambient declaration per schema-bearing collection;
collections using only `parseFrontMatter` are skipped. -/
def ambientDeclarations {V T : Type}
    (cs : List (FrontmatterCollectionConfig V T)) : List String :=
  cs.filterMap (fun c => c.schema.map (fun s =>
    "export const " ++ c.name ++ ": " ++ s.tsType c.name ++ "[];"))

/-- Lines 228-232: the full text of the generated declaration file. -/
def ambientDeclarationsString {V T : Type}
    (cs : List (FrontmatterCollectionConfig V T)) : String :=
  "// This file is auto-generated. Do not edit manually.\n"
    ++ "declare module \"virtual:frontmatter-collection\" \x7b\n"
    ++ String.intercalate "\n" (ambientDeclarations cs)
    ++ "\n\x7d\n"

/-- Model of node `path.join` for the two-segment use at lines 233-236. -/
def pathJoin (a b : String) : String := a ++ "/" ++ b

/-- Lines 233-236: the declaration file path, `typesPath` defaulting to
`frontmatter-collection.d.ts` under the project root. -/
def declarationFullPath (root : String) (typesPath : Option String) : String :=
  pathJoin root (match typesPath with
    | some p => p
    | none => "frontmatter-collection.d.ts")

/-- A file system as a map from paths to file contents. -/
abbrev Fs : Type := String → Option String

/-- `writeFileSync`: replace the contents at one path, truncating whatever
was there. -/
def writeFileSync (p contents : String) (fs : Fs) : Fs :=
  fun q => if q = p then some contents else fs q

/-- Lines 217-238, the `configResolved` hook: when `generateDTS` is set,
write the generated declaration file; otherwise do nothing. -/
def configResolved {V T : Type}
    (pc : FrontMatterCollectionPluginConfig V T) (root : String)
    (fs : Fs) : Fs :=
  if pc.generateDTS then
    writeFileSync (declarationFullPath root pc.typesPath)
      (ambientDeclarationsString pc.collections) fs
  else fs

/-- A collection has a processing contract when it declares a schema or a
parse function (the guard of lines 141-145 in boolean form). -/
def hasContract {V T : Type} (c : FrontmatterCollectionConfig V T) : Bool :=
  c.schema.isSome || c.parseFrontMatter.isSome

/-- Whether processing the given file fails (its schema validation rejects,
or its parse function throws). -/
def fileFails {V T : Type} (env : Env V T)
    (c : FrontmatterCollectionConfig V T) (file : String) : Bool :=
  match processFile env c file with
  | some (Except.error _) => true
  | _ => false

/-- Whether processing the given file produces an entry. -/
def fileSucceeds {V T : Type} (env : Env V T)
    (c : FrontmatterCollectionConfig V T) (file : String) : Bool :=
  match processFile env c file with
  | some (Except.ok _) => true
  | _ => false

/-- The successful entries of a file list, in file order. -/
def okEntries {V T : Type} (env : Env V T)
    (c : FrontmatterCollectionConfig V T) (files : List String) : List T :=
  files.filterMap (fun f => match processFile env c f with
    | some (Except.ok e) => some e
    | _ => none)

/-- The diagnostics recorded for the failing files of a file list. -/
def errDiags {V T : Type} (env : Env V T)
    (c : FrontmatterCollectionConfig V T) (files : List String) :
    List (String × String) :=
  files.filterMap (fun f => match processFile env c f with
    | some (Except.error e) => some (f, e)
    | _ => none)

/-- A schema fixture accepting exactly the objects that carry an `n` key. -/
def schemaC3 : ZodSchema String Nat where
  parse := fun o => match o.lookup "n" with
    | some _ => Except.ok 1
    | none => Except.error "invalid frontmatter"
  tsType := fun _ => "T"

/-- An environment with two matched files of which only `posts/a.mdx` carries
an `n` key in its metadata. -/
def envC3 : Env String Nat where
  glob := fun _ _ => ["posts/a.mdx", "posts/b.mdx"]
  fileData := fun f => if f = "posts/a.mdx" then [("n", "1")] else []
  str := fun s => s
  stringify := fun _ => "[]"

/-- A collection over `envC3` validating with `schemaC3`. -/
def cfgC3 : FrontmatterCollectionConfig String Nat where
  name := "posts"
  includePattern := "posts/**/*.mdx"
  schema := some schemaC3

/-- An environment with a single matched file and empty metadata. -/
def envOne : Env String Nat where
  glob := fun _ _ => ["posts/a.mdx"]
  fileData := fun _ => []
  str := fun s => s
  stringify := fun _ => "[]"

/-- A collection whose schema accepts everything and whose filter rejects
everything. -/
def cfgC1 : FrontmatterCollectionConfig String Nat where
  name := "posts"
  includePattern := "posts/**/*.mdx"
  schema := some { parse := fun _ => Except.ok 1, tsType := fun _ => "T" }
  filter := some (fun _ => false)

/-- A collection declaring neither a schema nor a parse function. -/
def cfgBad : FrontmatterCollectionConfig String Nat where
  name := "broken"
  includePattern := "posts/**/*.mdx"

/-- A collection with an always-accepting schema, for the aggregation
witness. -/
def cfgC6 : FrontmatterCollectionConfig String Nat where
  name := "posts"
  includePattern := "posts/**/*.mdx"
  schema := some { parse := fun _ => Except.ok 7, tsType := fun _ => "T" }

/-- The comparator fixture `(a, b) => a - b` (ascending numeric order). -/
def cmpC7 : Int → Int → Int := fun a b => a - b

/-- A schema fixture producing the length of the `n` value, so that distinct
files can compare equal under `cmpC7`. -/
def schemaC7 : ZodSchema String Int where
  parse := fun o => match o.lookup "n" with
    | some s => Except.ok (s.length : Int)
    | none => Except.error "invalid frontmatter"
  tsType := fun _ => "T"

/-- An environment with three matched files whose entries are 2, 1, 2 —
containing a tie for the sort-stability witness. -/
def envC7 : Env String Int where
  glob := fun _ _ => ["posts/a.mdx", "posts/b.mdx", "posts/c.mdx"]
  fileData := fun f =>
    if f = "posts/a.mdx" then [("n", "xx")]
    else if f = "posts/b.mdx" then [("n", "y")]
    else [("n", "zz")]
  str := fun s => s
  stringify := fun _ => "[]"

/-- A sorted collection over `envC7`. -/
def cfgC7 : FrontmatterCollectionConfig String Int where
  name := "posts"
  includePattern := "posts/**/*.mdx"
  schema := some schemaC7
  sort := some cmpC7

/-- An environment whose matcher is sensitive to whether the ignore patterns
it receives still contain a backslash. -/
def envC8 : Env String Nat where
  glob := fun _ ig => if ig = ["content\\drafts"] then ["posts/a.mdx"] else []
  fileData := fun _ => []
  str := fun s => s
  stringify := fun _ => "[]"

/-- A collection whose ignore pattern contains a backslash separator. -/
def cfgC8 : FrontmatterCollectionConfig String Nat where
  name := "posts"
  includePattern := "posts/**/*.mdx"
  schema := some { parse := fun _ => Except.ok 1, tsType := fun _ => "T" }
  ignore := ["content\\drafts"]

/-- A schema fixture distinguishable from the `pAlt` parse function. -/
def sC10 : ZodSchema String Nat where
  parse := fun _ => Except.ok 1
  tsType := fun _ => "T"

/-- A parse-function fixture returning a value `sC10` never returns. -/
def pAlt : Obj String → Except String Nat := fun _ => Except.ok 999

/-- A collection declaring both a schema and (via record update in the
witness) a parse function. -/
def cfgC10 : FrontmatterCollectionConfig String Nat where
  name := "posts"
  includePattern := "posts/**/*.mdx"
  schema := some sC10

/-- The per-file loop, started from any accumulator, appends the successful
entries and the recorded diagnostics of the processed files in file order. -/
theorem foldl_processStep {V T : Type} (env : Env V T)
    (c : FrontmatterCollectionConfig V T) (files : List String)
    (acc : List T × List (String × String)) :
    files.foldl (processStep env c) acc =
      (acc.1 ++ okEntries env c files, acc.2 ++ errDiags env c files) := by
  induction files generalizing acc with
  | nil => simp [okEntries, errDiags]
  | cons f fs ih =>
    simp only [List.foldl_cons]
    rw [ih]
    simp only [processStep, okEntries, errDiags, List.filterMap_cons]
    cases h : processFile env c f with
    | none => simp
    | some r =>
      cases r with
      | ok e => simp
      | error e => simp

/-- The loop of `collectFrontmatterEntries` computes exactly the successful
entries and the diagnostics of the resolved file set. -/
theorem rawEntries_eq {V T : Type} (env : Env V T)
    (c : FrontmatterCollectionConfig V T) :
    rawEntries env c =
      (okEntries env c (globFiles env c), errDiags env c (globFiles env c)) := by
  simpa using foldl_processStep env c (globFiles env c) ([], [])

/-- The length of a `filterMap` counts the inputs on which the function
produces a value. -/
theorem length_filterMap_eq_countP {α β : Type} (g : α → Option β)
    (l : List α) :
    (l.filterMap g).length = l.countP (fun a => (g a).isSome) := by
  induction l with
  | nil => rfl
  | cons a l ih =>
    rw [List.filterMap_cons, List.countP_cons]
    cases h : g a <;> simp [h, ih]

/-- The number of successful entries of a file list is the number of files
that process successfully. -/
theorem okEntries_length {V T : Type} (env : Env V T)
    (c : FrontmatterCollectionConfig V T) (files : List String) :
    (okEntries env c files).length = files.countP (fileSucceeds env c) := by
  unfold okEntries
  rw [length_filterMap_eq_countP]
  apply List.countP_congr
  intro f _
  unfold fileSucceeds
  cases h : processFile env c f with
  | none => simp [h]
  | some r => cases r <;> simp [h]

/-- The number of recorded diagnostics of a file list is the number of files
that fail to process. -/
theorem errDiags_length {V T : Type} (env : Env V T)
    (c : FrontmatterCollectionConfig V T) (files : List String) :
    (errDiags env c files).length = files.countP (fileFails env c) := by
  unfold errDiags
  rw [length_filterMap_eq_countP]
  apply List.countP_congr
  intro f _
  unfold fileFails
  cases h : processFile env c f with
  | none => simp [h]
  | some r => cases r <;> simp [h]

/-- With a contract present, every file either succeeds or fails (the per-file
match always takes the schema branch or the parse-function branch). -/
theorem fileFails_eq_not_fileSucceeds {V T : Type} (env : Env V T)
    (c : FrontmatterCollectionConfig V T) (hc : hasContract c = true)
    (f : String) :
    fileFails env c f = !fileSucceeds env c f := by
  unfold fileFails fileSucceeds processFile
  cases hs : c.schema with
  | some s =>
    simp only [hs]
    cases s.parse (mkFrontmatter env.str f (env.fileData f)) <;> rfl
  | none =>
    cases hp : c.parseFrontMatter with
    | some p =>
      simp only [hs, hp]
      cases p (mkFrontmatter env.str f (env.fileData f)) <;> rfl
    | none => simp [hasContract, hs, hp] at hc

/-- With a contract present, successes and failures partition the file set. -/
theorem countP_succeeds_add_countP_fails {V T : Type} (env : Env V T)
    (c : FrontmatterCollectionConfig V T) (hc : hasContract c = true)
    (files : List String) :
    files.countP (fileSucceeds env c) + files.countP (fileFails env c) =
      files.length := by
  induction files with
  | nil => rfl
  | cons f fs ih =>
    simp only [List.countP_cons, List.length_cons]
    rw [fileFails_eq_not_fileSucceeds env c hc f]
    cases hsucc : fileSucceeds env c f <;> simp [hsucc] <;> omega

/-- Sorting never changes the number of entries. -/
theorem applySort_length {T : Type} (s : Option (T → T → Int)) (l : List T) :
    (applySort s l).length = l.length := by
  cases s with
  | none => rfl
  | some cmp => exact (List.mergeSort_perm l _).length_eq

/-- With a contract present, compilation does not throw: it returns the
accumulated entries (sorted when configured) and the diagnostics. -/
theorem collect_ok_of_hasContract {V T : Type} (env : Env V T)
    (c : FrontmatterCollectionConfig V T) (hc : hasContract c = true) :
    collectFrontmatterEntries env c =
      Except.ok (applySort c.sort (rawEntries env c).1, (rawEntries env c).2) := by
  unfold collectFrontmatterEntries
  have hguard : (c.schema.isNone && c.parseFrontMatter.isNone) = false := by
    unfold hasContract at hc
    cases h1 : c.schema <;> cases h2 : c.parseFrontMatter <;> simp_all
  simp [hguard]

/-- With a contract present, the compiled entry sequence is the sorted
accumulation of the per-file successes. -/
theorem compiledEntries_of_hasContract {V T : Type} (env : Env V T)
    (c : FrontmatterCollectionConfig V T) (hc : hasContract c = true) :
    compiledEntries env c = applySort c.sort (rawEntries env c).1 := by
  unfold compiledEntries
  rw [collect_ok_of_hasContract env c hc]

/-- Without any contract, compilation throws the configuration error, for
every environment — in particular it consults neither the matcher nor any
file contents. -/
theorem collect_error_of_missing {V T : Type} (env : Env V T)
    (c : FrontmatterCollectionConfig V T) (h1 : c.schema = none)
    (h2 : c.parseFrontMatter = none) :
    collectFrontmatterEntries env c =
      Except.error (missingContractMsg c.name) := by
  simp [collectFrontmatterEntries, h1, h2]

/-- When every collection has a contract, the export-statement loop completes
and yields one statement per collection, in declaration order. -/
theorem exportStatements_ok {V T : Type} (env : Env V T)
    (cs : List (FrontmatterCollectionConfig V T))
    (h : ∀ c ∈ cs, hasContract c = true) :
    exportStatements env cs =
      Except.ok (cs.map (fun c => exportStatement env c (compiledEntries env c))) := by
  induction cs with
  | nil => rfl
  | cons c cs ih =>
    have hc := h c (List.mem_cons_self c cs)
    have hcs : ∀ d ∈ cs, hasContract d = true :=
      fun d hd => h d (List.mem_cons_of_mem c hd)
    simp only [exportStatements, collect_ok_of_hasContract env c hc, ih hcs,
      List.map_cons]
    rw [← compiledEntries_of_hasContract env c hc]

/-- When some collection lacks both contracts, the export-statement loop
aborts with an error. -/
theorem exportStatements_error {V T : Type} (env : Env V T)
    (cs : List (FrontmatterCollectionConfig V T))
    (c : FrontmatterCollectionConfig V T) (hmem : c ∈ cs)
    (h1 : c.schema = none) (h2 : c.parseFrontMatter = none) :
    ∃ msg, exportStatements env cs = Except.error msg := by
  induction cs with
  | nil => cases hmem
  | cons d ds ih =>
    rcases List.mem_cons.mp hmem with rfl | hmem'
    · exact ⟨missingContractMsg c.name,
        by simp [exportStatements, collect_error_of_missing env c h1 h2]⟩
    · cases hcol : collectFrontmatterEntries env d with
      | error e => exact ⟨e, by simp [exportStatements, hcol]⟩
      | ok r =>
        obtain ⟨m, hm⟩ := ih hmem'
        exact ⟨m, by simp [exportStatements, hcol, hm]⟩

/-- Normalizing path separators is idempotent. -/
theorem globsafe_globsafe (s : String) : globsafe (globsafe s) = globsafe s := by
  unfold globsafe
  simp only [List.map_map]
  congr 1
  apply List.map_congr_left
  intro a _
  by_cases h : a = '\\' <;> simp [h, Function.comp]

/-- C1 (code-bug evidence): the source declares and documents a `filter`
predicate on collection configs, but `collectFrontmatterEntries` never
consults it — with a filter rejecting every entry, the compiled output still
contains the successfully processed entry, so the compiled output does not
satisfy `filter(entry) === true`. -/
theorem c1_filter_never_applied :
    collectFrontmatterEntries envOne cfgC1 = Except.ok ([1], []) ∧
    cfgC1.filter = some (fun _ => false) ∧
    (cfgC1.filter.getD (fun _ => true)) 1 = false :=
  ⟨rfl, rfl, rfl⟩

/-- C2 (counterexample): in `{ filePath: file, ...data }` the spread of the
file's own metadata comes second, so a `filePath` key inside the metadata
block overrides the injected resolved path — the mapping handed to the
contract does not carry the file's path regardless of the metadata keys. -/
theorem c2_filePath_overridden :
    Obj.lookup (mkFrontmatter (fun s => s) "posts/a.mdx"
        [("filePath", "totally/other")]) "filePath" = some "totally/other" ∧
    Obj.lookup (mkFrontmatter (fun s => s) "posts/a.mdx"
        [("filePath", "totally/other")]) "filePath" ≠ some "posts/a.mdx" :=
  ⟨by decide, by decide⟩

/-- C2 (amended): the raw frontmatter mapping handed to the contract has its
`filePath` field equal to the resolved path of the file, provided the file's
own metadata block does not itself contain a `filePath` key (otherwise the
metadata value wins, since the spread of `data` follows the injected
binding). -/
theorem c2_filePath_injected {V : Type} (str : String → V) (file : String)
    (data : Obj V) (h : data.lookup "filePath" = none) :
    (mkFrontmatter str file data).lookup "filePath" = some (str file) := by
  unfold mkFrontmatter Obj.lookup at *
  rw [List.find?_append]
  have hfd : List.find? (fun p => p.1 == "filePath") data = none := by
    cases hf : List.find? (fun p => p.1 == "filePath") data <;> simp [hf] at h ⊢
  rw [hfd]
  simp

/-- Witness for C2 (amended) at a concrete metadata block without a
`filePath` key. -/
theorem c2_filePath_injected_witness :
    Obj.lookup ([("title", "A")] : Obj String) "filePath" = none ∧
    (mkFrontmatter (fun s => s) "posts/a.mdx"
      ([("title", "A")] : Obj String)).lookup "filePath" = some "posts/a.mdx" :=
  ⟨by decide,
    c2_filePath_injected (fun s => s) "posts/a.mdx" [("title", "A")] (by decide)⟩

/-- C3: with a contract present and exactly one file of the matched set
failing to process, compilation returns without throwing, with one entry per
remaining file, and records one diagnostic, which names a failing file of
the matched set; a per-file failure never aborts the rest of the loop. -/
theorem c3_partial_failure_isolation {V T : Type} (env : Env V T)
    (c : FrontmatterCollectionConfig V T) (hc : hasContract c = true)
    (h1 : (globFiles env c).countP (fileFails env c) = 1) :
    ∃ es ds, collectFrontmatterEntries env c = Except.ok (es, ds) ∧
      es.length + 1 = (globFiles env c).length ∧
      ds.length = 1 ∧
      ∀ d ∈ ds, fileFails env c d.1 = true ∧ d.1 ∈ globFiles env c := by
  have hre := rawEntries_eq env c
  refine ⟨applySort c.sort (rawEntries env c).1, (rawEntries env c).2,
    collect_ok_of_hasContract env c hc, ?_, ?_, ?_⟩
  · rw [applySort_length, hre]
    simp only
    rw [okEntries_length]
    have hsum := countP_succeeds_add_countP_fails env c hc (globFiles env c)
    omega
  · rw [hre]
    simp only
    rw [errDiags_length]
    exact h1
  · rw [hre]
    simp only
    intro d hd
    rw [errDiags, List.mem_filterMap] at hd
    obtain ⟨f, hf, hfd⟩ := hd
    cases hp : processFile env c f with
    | none => rw [hp] at hfd; simp at hfd
    | some r =>
      cases r with
      | ok e => rw [hp] at hfd; simp at hfd
      | error e =>
        rw [hp] at hfd
        simp only [Option.some.injEq] at hfd
        subst hfd
        exact ⟨by simp [fileFails, hp], hf⟩

/-- Witness for C3: two matched files of which exactly one fails schema
validation; the compiled collection has one entry and one diagnostic. -/
theorem c3_partial_failure_isolation_witness :
    hasContract cfgC3 = true ∧
    (globFiles envC3 cfgC3).countP (fileFails envC3 cfgC3) = 1 ∧
    (∃ es ds, collectFrontmatterEntries envC3 cfgC3 = Except.ok (es, ds) ∧
      es.length + 1 = (globFiles envC3 cfgC3).length ∧
      ds.length = 1 ∧
      ∀ d ∈ ds, fileFails envC3 cfgC3 d.1 = true ∧ d.1 ∈ globFiles envC3 cfgC3) :=
  ⟨by decide, by decide,
    c3_partial_failure_isolation envC3 cfgC3 (by decide) (by decide)⟩

/-- C4: a collection declaring neither `schema` nor `parseFrontMatter` makes
compilation throw the configuration error uniformly in the environment — in
particular before the matcher is consulted or any file is read — and the
whole virtual-module refresh fails, producing no module body. -/
theorem c4_missing_contract {V T : Type} (env : Env V T)
    (c : FrontmatterCollectionConfig V T)
    (cs : List (FrontmatterCollectionConfig V T))
    (h1 : c.schema = none) (h2 : c.parseFrontMatter = none) (hmem : c ∈ cs) :
    collectFrontmatterEntries env c = Except.error (missingContractMsg c.name) ∧
    ∃ msg, refreshVirtualModuleContent env cs = Except.error msg := by
  refine ⟨collect_error_of_missing env c h1 h2, ?_⟩
  obtain ⟨m, hm⟩ := exportStatements_error env cs c hmem h1 h2
  exact ⟨m, by unfold refreshVirtualModuleContent; rw [hm]; rfl⟩

/-- Witness for C4 at a concrete contract-free collection. -/
theorem c4_missing_contract_witness :
    cfgBad.schema = none ∧ cfgBad.parseFrontMatter = none ∧
    cfgBad ∈ [cfgBad] ∧
    (collectFrontmatterEntries envOne cfgBad =
        Except.error (missingContractMsg cfgBad.name) ∧
      ∃ msg, refreshVirtualModuleContent envOne [cfgBad] = Except.error msg) :=
  ⟨rfl, rfl, by simp,
    c4_missing_contract envOne cfgBad [cfgBad] rfl rfl (by simp)⟩

/-- C5: starting from a not-yet-invalidated state, a hot-update notification
marks the virtual module stale exactly when the changed path ends in `.mdx`
and the virtual module is present in the module graph. -/
theorem c5_invalidation_selectivity (file : String) (g : ModuleGraph)
    (h : g.invalidated = false) :
    (handleHotUpdate file g).invalidated = true ↔
      (endsWithStr file ".mdx" = true ∧ g.hasVirtualModule = true) := by
  unfold handleHotUpdate
  cases he : endsWithStr file ".mdx" <;> cases hv : g.hasVirtualModule <;>
    simp [he, hv, h]

/-- Witness for C5 at a matching path with the virtual module present. -/
theorem c5_invalidation_selectivity_witness :
    (ModuleGraph.mk true false).invalidated = false ∧
    ((handleHotUpdate "posts/a.mdx" (ModuleGraph.mk true false)).invalidated
        = true ↔
      (endsWithStr "posts/a.mdx" ".mdx" = true ∧
        (ModuleGraph.mk true false).hasVirtualModule = true)) :=
  ⟨rfl, c5_invalidation_selectivity "posts/a.mdx" (ModuleGraph.mk true false) rfl⟩

/-- C6: when every collection declares a contract, the virtual module body is
exactly the newline-joined sequence of `export const <name> = <serialized
entries>;` statements, one per collection, in declaration order, each
serializing that collection's compiled entry sequence. -/
theorem c6_virtual_module_body {V T : Type} (env : Env V T)
    (cs : List (FrontmatterCollectionConfig V T))
    (h : ∀ c ∈ cs, hasContract c = true) :
    refreshVirtualModuleContent env cs =
      Except.ok (String.intercalate "\n"
        (cs.map (fun c => exportStatement env c (compiledEntries env c)))) := by
  unfold refreshVirtualModuleContent
  rw [exportStatements_ok env cs h]
  rfl

/-- Witness for C6 with one concrete schema-bearing collection. -/
theorem c6_virtual_module_body_witness :
    (∀ c ∈ [cfgC6], hasContract c = true) ∧
    refreshVirtualModuleContent envOne [cfgC6] =
      Except.ok (String.intercalate "\n"
        ([cfgC6].map (fun c => exportStatement envOne c (compiledEntries envOne c)))) :=
  ⟨by decide, c6_virtual_module_body envOne [cfgC6] (by decide)⟩

/-- C7: with a consistent comparator configured as `sort`, every adjacent
pair a-before-b of the compiled output has `cmp a b ≤ 0` (the comparator
never requires b before a), and any two entries comparing equal keep their
relative order from the pre-sort accumulation (stability of
`Array.prototype.sort`). -/
theorem c7_sort_correct {V T : Type} (env : Env V T)
    (c : FrontmatterCollectionConfig V T) (cmp : T → T → Int)
    (hc : hasContract c = true) (hs : c.sort = some cmp)
    (htrans : ∀ a b d, cmp a b ≤ 0 → cmp b d ≤ 0 → cmp a d ≤ 0)
    (htot : ∀ a b, cmp a b ≤ 0 ∨ cmp b a ≤ 0) :
    List.Chain' (fun a b => cmp a b ≤ 0) (compiledEntries env c) ∧
    ∀ a b, cmp a b = 0 → [a, b].Sublist (rawEntries env c).1 →
      [a, b].Sublist (compiledEntries env c) := by
  have hce : compiledEntries env c = jsSort cmp (rawEntries env c).1 := by
    rw [compiledEntries_of_hasContract env c hc, hs]
    rfl
  have htransb : ∀ a b d : T, (fun a b => decide (cmp a b ≤ 0)) a b = true →
      (fun a b => decide (cmp a b ≤ 0)) b d = true →
      (fun a b => decide (cmp a b ≤ 0)) a d = true := by
    intro a b d hab hbd
    simp only [decide_eq_true_eq] at hab hbd ⊢
    exact htrans a b d hab hbd
  have htotb : ∀ a b : T, ((fun a b => decide (cmp a b ≤ 0)) a b ||
      (fun a b => decide (cmp a b ≤ 0)) b a) = true := by
    intro a b
    rcases htot a b with h | h <;> simp [h]
  constructor
  · rw [hce]
    have hp := List.sorted_mergeSort htransb htotb (rawEntries env c).1
    exact (hp.imp (fun h => by simpa using h)).chain'
  · intro a b hab hsub
    rw [hce]
    apply List.sublist_mergeSort htransb htotb ?_ hsub
    have h0 : cmp a b ≤ 0 := le_of_eq hab
    simp [List.pairwise_cons, h0]

/-- Witness for C7: three entries 2, 1, 2 sorted by the numeric comparator
`(a, b) => a - b`, with a tie between the two entries equal to 2. -/
theorem c7_sort_correct_witness :
    hasContract cfgC7 = true ∧ cfgC7.sort = some cmpC7 ∧
    (∀ a b d : Int, cmpC7 a b ≤ 0 → cmpC7 b d ≤ 0 → cmpC7 a d ≤ 0) ∧
    (∀ a b : Int, cmpC7 a b ≤ 0 ∨ cmpC7 b a ≤ 0) ∧
    (List.Chain' (fun a b => cmpC7 a b ≤ 0) (compiledEntries envC7 cfgC7) ∧
      ∀ a b, cmpC7 a b = 0 → [a, b].Sublist (rawEntries envC7 cfgC7).1 →
        [a, b].Sublist (compiledEntries envC7 cfgC7)) := by
  have ht1 : ∀ a b d : Int, cmpC7 a b ≤ 0 → cmpC7 b d ≤ 0 → cmpC7 a d ≤ 0 := by
    intro a b d h1 h2
    simp only [cmpC7] at h1 h2 ⊢
    omega
  have ht2 : ∀ a b : Int, cmpC7 a b ≤ 0 ∨ cmpC7 b a ≤ 0 := by
    intro a b
    simp only [cmpC7]
    omega
  exact ⟨by decide, rfl, ht1, ht2,
    c7_sort_correct envC7 cfgC7 cmpC7 (by decide) rfl ht1 ht2⟩

/-- C8 (counterexample): normalization of path separators is not applied to
the ignore patterns — a matcher that distinguishes an ignore pattern
containing a backslash from its normalized form observes the raw pattern, so
compilation at the raw config differs from compilation at the config with
both pattern kinds normalized. -/
theorem c8_ignore_not_normalized :
    collectFrontmatterEntries envC8 cfgC8 ≠
      collectFrontmatterEntries envC8
        { cfgC8 with includePattern := globsafe cfgC8.includePattern,
                     ignore := cfgC8.ignore.map globsafe } := by
  have hA : collectFrontmatterEntries envC8 cfgC8 =
      Except.ok ([1], []) := rfl
  have hB : collectFrontmatterEntries envC8
      { cfgC8 with includePattern := globsafe cfgC8.includePattern,
                   ignore := cfgC8.ignore.map globsafe } =
      Except.ok ([], []) := rfl
  rw [hA, hB]
  intro h
  simp at h

/-- C8 (amended): only the include pattern is normalized before matching —
compilation is invariant under pre-normalizing the include pattern (the
ignore patterns are handed to the matcher as given). -/
theorem c8_include_normalized {V T : Type} (env : Env V T)
    (c : FrontmatterCollectionConfig V T) :
    collectFrontmatterEntries env c =
      collectFrontmatterEntries env
        { c with includePattern := globsafe c.includePattern } := by
  simp only [collectFrontmatterEntries, rawEntries, globFiles, globArgs,
    globsafe_globsafe]
  rfl

/-- C9: declaration emission is idempotent and deterministic — running the
`configResolved` hook twice with the same plugin config and project root
leaves exactly the file system state of one run, the single written file
holding the byte-identical generated declaration text both times. -/
theorem c9_declaration_idempotent {V T : Type}
    (pc : FrontMatterCollectionPluginConfig V T) (root : String) (fs : Fs) :
    configResolved pc root (configResolved pc root fs) =
      configResolved pc root fs := by
  unfold configResolved
  cases h : pc.generateDTS with
  | false => simp [h]
  | true =>
    simp only [h, if_true]
    funext q
    unfold writeFileSync
    by_cases hq : q = declarationFullPath root pc.typesPath <;> simp [hq]

/-- C10: when a collection declares both a schema and a parse function, the
compiled result is what the schema alone produces — the parse function is
never consulted (compilation with it present equals compilation with it
absent, for every parse function). -/
theorem c10_schema_precedence {V T : Type} (env : Env V T)
    (c : FrontmatterCollectionConfig V T) (s : ZodSchema V T)
    (hschema : c.schema = some s) (p : Obj V → Except String T) :
    collectFrontmatterEntries env { c with parseFrontMatter := some p } =
      collectFrontmatterEntries env { c with parseFrontMatter := none } := by
  have hpf : ∀ q : Option (Obj V → Except String T),
      processFile env { c with parseFrontMatter := q } =
        processFile env { c with parseFrontMatter := none } := by
    intro q
    funext f
    simp [processFile, hschema]
  have hstep : processStep env { c with parseFrontMatter := some p } =
      processStep env { c with parseFrontMatter := none } := by
    funext acc f
    simp only [processStep, hpf (some p)]
  have hc1 : hasContract { c with parseFrontMatter := some p } = true := by
    simp [hasContract, hschema]
  have hc2 : hasContract { c with parseFrontMatter := none } = true := by
    simp [hasContract, hschema]
  rw [collect_ok_of_hasContract _ _ hc1, collect_ok_of_hasContract _ _ hc2]
  have hraw : rawEntries env { c with parseFrontMatter := some p } =
      rawEntries env { c with parseFrontMatter := none } := by
    unfold rawEntries
    rw [hstep]
    rfl
  rw [hraw]

/-- Witness for C10 at a concrete collection carrying both a schema and a
parse function returning a value the schema never returns. -/
theorem c10_schema_precedence_witness :
    cfgC10.schema = some sC10 ∧
    collectFrontmatterEntries envOne { cfgC10 with parseFrontMatter := some pAlt } =
      collectFrontmatterEntries envOne { cfgC10 with parseFrontMatter := none } :=
  ⟨rfl, c10_schema_precedence envOne cfgC10 sC10 rfl pAlt⟩

end FrontmatterCollection
